import Mathlib

/-!
Verification of the `kvp` crate (`src/lib.rs`): a generic `KeyValuePair`
whose equality, ordering and hashing are forwarded to the key alone.

The shallow embedding treats the key and value types as arbitrary Lean
types and passes the key's trait methods (`PartialEq::eq`,
`PartialOrd::partial_cmp`, `Ord::cmp`, `Hash::hash`, `Debug::fmt`,
`Clone::clone`) as explicit function parameters, since in Rust they are
whatever the instantiating types implement.  The hasher (`H: Hasher`) is
modelled as an arbitrary state type `S` which the key's hash function
updates.
-/

/-- The struct `KeyValuePair<TKey, TValue>` of `src/lib.rs`: two public
fields, `key` and `value`. -/
structure KeyValuePair (K V : Type) where
  key : K
  value : V

namespace KeyValuePair

/-- `KeyValuePair::new(key, value)`: `Self { key, value }`. -/
def new {K V : Type} (key : K) (value : V) : KeyValuePair K V :=
  ⟨key, value⟩

/-- `impl<TKey: PartialEq, TValue> PartialEq for KeyValuePair`:
`fn eq(&self, other) { self.key == other.key }`.  The key type's own
`PartialEq::eq` is the parameter `keq`. -/
def eq {K V : Type} (keq : K → K → Bool) (a b : KeyValuePair K V) : Bool :=
  keq a.key b.key

/-- `impl<TKey: PartialOrd, TValue> PartialOrd for KeyValuePair`:
`fn partial_cmp(&self, other) { self.key.partial_cmp(&other.key) }`.
The key type's own `PartialOrd::partial_cmp` is the parameter `pcmp`;
Rust's `Option<Ordering>` is `Option Ordering`. -/
def partial_cmp {K V : Type} (pcmp : K → K → Option Ordering)
    (a b : KeyValuePair K V) : Option Ordering :=
  pcmp a.key b.key

/-- `impl<TKey: Ord, TValue> Ord for KeyValuePair`:
`fn cmp(&self, other) { self.key.cmp(&other.key) }`.  The key type's own
`Ord::cmp` is the parameter `kcmp`. -/
def cmp {K V : Type} (kcmp : K → K → Ordering)
    (a b : KeyValuePair K V) : Ordering :=
  kcmp a.key b.key

/-- `impl<TKey: Hash, TValue> Hash for KeyValuePair`:
`fn hash<H: Hasher>(&self, state) { self.key.hash(state) }`.  The hasher
state is an arbitrary type `S`; the key type's own `Hash::hash`, which
feeds the key into the state, is the parameter `khash`. -/
def hash {K V S : Type} (khash : K → S → S)
    (p : KeyValuePair K V) (state : S) : S :=
  khash p.key state

/-- `impl<TKey: Debug, TValue: Debug> Debug for KeyValuePair`:
`f.debug_struct("Info").field("key", &self.key).field("value", &self.value).finish()`,
which renders as `Info \x7b key: <K>, value: <V> \x7d` in the
non-alternate format.  The field types' own `Debug` renderings are the
parameters `dbgK` and `dbgV`. -/
def fmt {K V : Type} (dbgK : K → String) (dbgV : V → String)
    (p : KeyValuePair K V) : String :=
  "Info \x7b key: " ++ dbgK p.key ++ ", value: " ++ dbgV p.value ++ " \x7d"

/-- `impl<TKey: Clone, TValue: Clone> Clone for KeyValuePair`:
`Self { key: self.key.clone(), value: self.value.clone() }`.  The field
types' own `Clone::clone` are the parameters `cloneK` and `cloneV`. -/
def clone {K V : Type} (cloneK : K → K) (cloneV : V → V)
    (p : KeyValuePair K V) : KeyValuePair K V :=
  ⟨cloneK p.key, cloneV p.value⟩

end KeyValuePair

/-- The test module's `struct NonOrderedType;`: a payload type carrying no
equality, ordering or hashing capability (no such instances are declared
for it here). -/
inductive NonOrderedType : Type where
  | mk : NonOrderedType

/-- Model of `slice::sort`'s insertion step: place `x` after every earlier
element that is not greater than it under the `Ord::cmp` comparison `c`. -/
def insertByCmp {α : Type} (c : α → α → Ordering) (x : α) :
    List α → List α
  | [] => [x]
  | y :: ys =>
    if c y x = Ordering.gt then x :: y :: ys else y :: insertByCmp c x ys

/-- Model of `Vec::sort` on lists: stable insertion sort by `Ord::cmp`. -/
def sortByCmp {α : Type} (c : α → α → Ordering) : List α → List α
  | [] => []
  | x :: xs => insertByCmp c x (sortByCmp c xs)

/-- The vector built in `tests::eq_is_respected`: pairs with keys
`2, 1, 0, 6` and `NonOrderedType` values. -/
def eqIsRespectedInput : List (KeyValuePair Nat NonOrderedType) :=
  [⟨2, .mk⟩, ⟨1, .mk⟩, ⟨0, .mk⟩, ⟨6, .mk⟩]

/-- C1: equality of two pairs is exactly the key type's own equality of the
keys, for any values of any value type; the value fields are never
inspected (replacing them does not change the result). -/
theorem kvp_eq_is_key_only {K V : Type} (keq : K → K → Bool)
    (k1 k2 : K) (v1 v2 : V) :
    KeyValuePair.eq keq (⟨k1, v1⟩ : KeyValuePair K V) ⟨k2, v2⟩ = keq k1 k2 ∧
    ∀ (W : Type) (w1 w2 : W),
      KeyValuePair.eq keq (⟨k1, w1⟩ : KeyValuePair K W) ⟨k2, w2⟩ =
        KeyValuePair.eq keq (⟨k1, v1⟩ : KeyValuePair K V) ⟨k2, v2⟩ :=
  ⟨rfl, fun _ _ _ => rfl⟩

/-- C2: the total-order comparison of two pairs is exactly the key type's
own total-order comparison of the keys, independent of the values. -/
theorem kvp_cmp_is_key_only {K V : Type} (kcmp : K → K → Ordering)
    (k1 k2 : K) (v1 v2 : V) :
    KeyValuePair.cmp kcmp (⟨k1, v1⟩ : KeyValuePair K V) ⟨k2, v2⟩ = kcmp k1 k2 ∧
    ∀ (W : Type) (w1 w2 : W),
      KeyValuePair.cmp kcmp (⟨k1, w1⟩ : KeyValuePair K W) ⟨k2, w2⟩ =
        KeyValuePair.cmp kcmp (⟨k1, v1⟩ : KeyValuePair K V) ⟨k2, v2⟩ :=
  ⟨rfl, fun _ _ _ => rfl⟩

/-- C3: the partial comparison of two pairs is exactly the key type's own
partial comparison of the keys; in particular it is `none` (incomparable)
iff the key comparison is, regardless of the values. -/
theorem kvp_partialCmp_is_key_only {K V : Type}
    (pcmp : K → K → Option Ordering) (k1 k2 : K) (v1 v2 : V) :
    KeyValuePair.partial_cmp pcmp (⟨k1, v1⟩ : KeyValuePair K V) ⟨k2, v2⟩ =
      pcmp k1 k2 ∧
    (KeyValuePair.partial_cmp pcmp (⟨k1, v1⟩ : KeyValuePair K V) ⟨k2, v2⟩ =
        none ↔ pcmp k1 k2 = none) ∧
    ∀ (W : Type) (w1 w2 : W),
      KeyValuePair.partial_cmp pcmp (⟨k1, w1⟩ : KeyValuePair K W) ⟨k2, w2⟩ =
        KeyValuePair.partial_cmp pcmp (⟨k1, v1⟩ : KeyValuePair K V) ⟨k2, v2⟩ :=
  ⟨rfl, Iff.rfl, fun _ _ _ => rfl⟩

/-- C4: hashing a pair from any hasher state produces exactly the state
obtained by hashing the bare key; hence two pairs with the same key and
different values hash to identical states. -/
theorem kvp_hash_is_key_only {K V S : Type} (khash : K → S → S)
    (k : K) (s : S) (v v1 v2 : V) :
    KeyValuePair.hash khash (⟨k, v⟩ : KeyValuePair K V) s = khash k s ∧
    KeyValuePair.hash khash (⟨k, v1⟩ : KeyValuePair K V) s =
      KeyValuePair.hash khash (⟨k, v2⟩ : KeyValuePair K V) s :=
  ⟨rfl, rfl⟩

/-- C5: whenever the key type's own equality and hashing are consistent
(equal keys hash identically from every state), pairs that compare equal
hash identically from any common initial state. -/
theorem kvp_eq_hash_consistent {K V S : Type} (keq : K → K → Bool)
    (khash : K → S → S)
    (hcons : ∀ (x y : K) (s : S), keq x y = true → khash x s = khash y s)
    (a b : KeyValuePair K V) (hab : KeyValuePair.eq keq a b = true) (s : S) :
    KeyValuePair.hash khash a s = KeyValuePair.hash khash b s :=
  hcons a.key b.key s hab

/-- Witness for C5 at concrete inputs: keys `3 = 3`, values `true` and
`false`, additive hasher over `Nat`, initial state `7`. -/
theorem kvp_eq_hash_consistent_witness :
    KeyValuePair.hash (fun (k s : Nat) => s + k)
        (⟨3, true⟩ : KeyValuePair Nat Bool) 7 =
      KeyValuePair.hash (fun (k s : Nat) => s + k)
        (⟨3, false⟩ : KeyValuePair Nat Bool) 7 :=
  kvp_eq_hash_consistent Nat.beq (fun (k s : Nat) => s + k)
    (fun x y s h => by rw [Nat.eq_of_beq_eq_true h])
    ⟨3, true⟩ ⟨3, false⟩ (by decide) 7

/-- C6: construction always succeeds, stores the fields as given with no
transformation, and `new k v` is exactly the directly constructed pair. -/
theorem kvp_new_stores_fields {K V : Type} (k : K) (v : V) :
    (KeyValuePair.new k v).key = k ∧ (KeyValuePair.new k v).value = v ∧
    KeyValuePair.new k v = (⟨k, v⟩ : KeyValuePair K V) :=
  ⟨rfl, rfl, rfl⟩

/-- C7: when the field types' own clones are faithful (the clone of a field
is equal to it by that type's own equality), the clone of a pair has a key
equal to the pair's key and a value equal to the pair's value; in this
value semantics the clone is a fresh pair built from the cloned fields,
independent of the original. -/
theorem kvp_clone_faithful {K V : Type} (keq : K → K → Bool)
    (veq : V → V → Bool) (cloneK : K → K) (cloneV : V → V)
    (hK : ∀ k, keq (cloneK k) k = true) (hV : ∀ v, veq (cloneV v) v = true)
    (p : KeyValuePair K V) :
    keq (KeyValuePair.clone cloneK cloneV p).key p.key = true ∧
    veq (KeyValuePair.clone cloneK cloneV p).value p.value = true ∧
    KeyValuePair.clone cloneK cloneV p = ⟨cloneK p.key, cloneV p.value⟩ :=
  ⟨hK p.key, hV p.value, rfl⟩

/-- Witness for C7 at concrete inputs: `Nat` key `5`, `Bool` value `true`,
identity clones, `Nat.beq` and `Bool` equality. -/
theorem kvp_clone_faithful_witness :
    Nat.beq (KeyValuePair.clone id id (⟨5, true⟩ : KeyValuePair Nat Bool)).key
        5 = true ∧
    ((KeyValuePair.clone id id (⟨5, true⟩ : KeyValuePair Nat Bool)).value ==
        true) = true ∧
    KeyValuePair.clone id id (⟨5, true⟩ : KeyValuePair Nat Bool) = ⟨5, true⟩ :=
  kvp_clone_faithful Nat.beq (fun a b => a == b) id id
    (fun k => Nat.beq_refl k) (fun v => by cases v <;> rfl) ⟨5, true⟩

/-- C8: the debug rendering contains the rendering of the key and, after
it, the rendering of the value, for every pair; at the concrete pair
`(50, "Hey")` with the integer and string `Debug` renderings, the output
contains both the literal `50` and the literal `Hey`. -/
theorem kvp_fmt_renders_both {K V : Type} (dbgK : K → String)
    (dbgV : V → String) (k : K) (v : V) :
    (∃ s1 s2 s3, KeyValuePair.fmt dbgK dbgV (⟨k, v⟩ : KeyValuePair K V) =
        s1 ++ dbgK k ++ s2 ++ dbgV v ++ s3) ∧
    (∃ t1 t2, KeyValuePair.fmt (fun n : Int => toString n)
        (fun s : String => "\"" ++ s ++ "\"")
        (⟨50, "Hey"⟩ : KeyValuePair Int String) = t1 ++ "50" ++ t2) ∧
    (∃ u1 u2, KeyValuePair.fmt (fun n : Int => toString n)
        (fun s : String => "\"" ++ s ++ "\"")
        (⟨50, "Hey"⟩ : KeyValuePair Int String) = u1 ++ "Hey" ++ u2) :=
  ⟨⟨"Info \x7b key: ", ", value: ", " \x7d", rfl⟩,
   ⟨"Info \x7b key: ", ", value: \"Hey\" \x7d", by decide⟩,
   ⟨"Info \x7b key: 50, value: \"", "\" \x7d", by decide⟩⟩

/-- C9: sorting the test's four pairs (keys `2, 1, 0, 6`, values of the
capability-free `NonOrderedType`) by the pair's own ordering yields the
keys in ascending order `0, 1, 2, 6`. -/
theorem kvp_sort_test_scenario :
    (sortByCmp (KeyValuePair.cmp compare) eqIsRespectedInput).map
        KeyValuePair.key = [0, 1, 2, 6] := by
  decide

/-- C10: whenever the key type's partial comparison is `some` of its total
comparison (Rust's PartialOrd/Ord consistency), the pair's partial
comparison is `some` of the pair's total comparison, so two pairs are
never incomparable. -/
theorem kvp_partialCmp_eq_some_cmp {K V : Type}
    (pcmp : K → K → Option Ordering) (kcmp : K → K → Ordering)
    (hcons : ∀ x y : K, pcmp x y = some (kcmp x y))
    (a b : KeyValuePair K V) :
    KeyValuePair.partial_cmp pcmp a b = some (KeyValuePair.cmp kcmp a b) :=
  hcons a.key b.key

/-- Witness for C10 at concrete inputs: `Nat` keys `4` and `9`, the standard
`compare` as both comparisons. -/
theorem kvp_partialCmp_eq_some_cmp_witness :
    KeyValuePair.partial_cmp (fun x y : Nat => some (compare x y))
        (⟨4, true⟩ : KeyValuePair Nat Bool) ⟨9, false⟩ =
      some (KeyValuePair.cmp compare
        (⟨4, true⟩ : KeyValuePair Nat Bool) ⟨9, false⟩) :=
  kvp_partialCmp_eq_some_cmp (fun x y : Nat => some (compare x y)) compare
    (fun _ _ => rfl) ⟨4, true⟩ ⟨9, false⟩
